import Mathlib

/-!
Shallow embedding of the `goresily` repository: a circuit breaker
(`circuitbreaker` package), a bulkhead (`bulkhead` package) and the HTTP
client that composes them (`httpclient` package).

Modelling conventions:
* `time.Time` and `time.Duration` are modelled as `Int` (Go's monotonic
  clock readings and signed 64-bit durations); `time.Since(t)` at instant
  `now` is `now - t`.
* Go `error` values are the inductive `GoErr`; a Go `error` result is
  `Option GoErr` (`none` = `nil`).
* The wrapped operation `fn func() error` may touch external state (the
  bulkhead's semaphore in the composed client), so the breaker's `Execute`
  is generic over an operation `σ → σ × Option GoErr` acting on that state.
  We model the sequential (single-caller) execution of the Go code: the two
  critical sections of `Execute` run back to back with no interleaving.
* The `onStateChange` listener is modelled by the list of states it is
  called with (`events`), and `startOpenTimer` by a count of how many times
  the one-shot open timer is armed (`timers`).
-/

namespace Goresily

/-- Go `error` values that appear in the repository:
`circuitbreaker.ErrOpen`, `bulkhead.ErrFull`, the `fmt.Errorf("server
error: %d", ...)` produced by `Client.Call`, transport-level errors from
the HTTP client, and arbitrary operation failures. -/
inductive GoErr : Type
| errOpen : GoErr
| errFull : GoErr
| serverError : Int → GoErr
| transportFailure : Nat → GoErr
| opFailure : Nat → GoErr
deriving DecidableEq, Repr

/-- `circuitbreaker.State`: `Closed`, `Open`, `HalfOpen` (source lines
13–22 of the circuitbreaker file). -/
inductive State : Type
| Closed : State
| Open : State
| HalfOpen : State
deriving DecidableEq, Repr

/-- `circuitbreaker.CircuitBreaker` (source lines 38–50): the mutex is not
modelled (sequential semantics), the `onStateChange` callback is modelled
by the event list returned by the operations below. -/
structure CircuitBreaker : Type where
  maxFailures : Int
  window : Int
  timeout : Int
  trialRequests : Int
  trialDuration : Int
  failureTimes : List Int
  trialCount : Int
  trialStart : Int
  state : State
deriving DecidableEq, Repr

/-- `CircuitBreaker.setState` (source lines 119–126): change the state and
invoke the listener only when the new state differs from the current one.
The second component is the list of states the `onStateChange` listener is
called with. -/
def CircuitBreaker.setState (cb : CircuitBreaker) (s : State) :
    CircuitBreaker × List State :=
  if cb.state ≠ s then ({ cb with state := s }, [s]) else (cb, [])

/-- `CircuitBreaker.recordFailure` (source lines 179–194): append `now` to
`failureTimes`; if `window > 0`, advance an index over the leading
timestamps that are not `After(cutoff)` (i.e. `≤ now - window`) and drop
that prefix. -/
def CircuitBreaker.recordFailure (cb : CircuitBreaker) (now : Int) :
    CircuitBreaker :=
  let ft := cb.failureTimes ++ [now]
  if 0 < cb.window then
    { cb with failureTimes := ft.dropWhile (fun t => decide (t ≤ now - cb.window)) }
  else
    { cb with failureTimes := ft }

/-- `CircuitBreaker.resetFailures` (source lines 196–199): clear the
failure record and the trial counter. -/
def CircuitBreaker.resetFailures (cb : CircuitBreaker) : CircuitBreaker :=
  { cb with failureTimes := [], trialCount := 0 }

/-- Result of one (sequential) run of `CircuitBreaker.Execute` over
operation state `σ`: the final breaker, the final operation state, the
returned Go error (`none` = success), whether the wrapped operation was
invoked, the states the listener was called with, and how many times
`startOpenTimer` armed the open timer. -/
structure ExecOut (σ : Type) : Type where
  cb : CircuitBreaker
  opState : σ
  ret : Option GoErr
  invoked : Bool
  events : List State
  timers : Nat
deriving Repr

/-- `CircuitBreaker.Execute` (source lines 129–177), sequentially: snapshot
the state; if HalfOpen past its trial window, re-open, arm the timer and
return `ErrOpen`; if Open, return `ErrOpen`; otherwise run `fn` and switch
on the snapshot (Closed / HalfOpen / default). -/
def CircuitBreaker.Execute {σ : Type} (cb : CircuitBreaker) (now : Int)
    (fn : σ → σ × Option GoErr) (s : σ) : ExecOut σ :=
  let state := cb.state
  if state = State.HalfOpen ∧ 0 < cb.trialDuration ∧
      cb.trialDuration < now - cb.trialStart then
    let p := cb.setState State.Open
    { cb := p.1, opState := s, ret := some GoErr.errOpen, invoked := false,
      events := p.2, timers := 1 }
  else if state = State.Open then
    { cb := cb, opState := s, ret := some GoErr.errOpen, invoked := false,
      events := [], timers := 0 }
  else
    let r := fn s
    let s1 := r.1
    let err := r.2
    match state with
    | State.Closed =>
      match err with
      | some e =>
        let cb1 := cb.recordFailure now
        if cb1.maxFailures ≤ (cb1.failureTimes.length : Int) then
          let cb2 := cb1.resetFailures
          let p := cb2.setState State.Open
          { cb := p.1, opState := s1, ret := some e, invoked := true,
            events := p.2, timers := 1 }
        else
          { cb := cb1, opState := s1, ret := some e, invoked := true,
            events := [], timers := 0 }
      | none =>
        { cb := cb.resetFailures, opState := s1, ret := none, invoked := true,
          events := [], timers := 0 }
    | State.HalfOpen =>
      let cb1 := { cb with trialCount := cb.trialCount + 1 }
      match err with
      | some e =>
        let p := cb1.setState State.Open
        { cb := p.1, opState := s1, ret := some e, invoked := true,
          events := p.2, timers := 1 }
      | none =>
        if cb1.trialRequests = 0 ∨ cb1.trialRequests ≤ cb1.trialCount then
          let p := cb1.setState State.Closed
          { cb := p.1.resetFailures, opState := s1, ret := none,
            invoked := true, events := p.2, timers := 0 }
        else
          { cb := cb1, opState := s1, ret := none, invoked := true,
            events := [], timers := 0 }
    | State.Open =>
      { cb := cb, opState := s1, ret := err, invoked := true,
        events := [], timers := 0 }

/-- The breaker-only instantiation: the wrapped operation touches no
modelled state and returns the fixed outcome `res` (`Client.execute`'s
breaker-only arm wraps the operation directly). -/
def CircuitBreaker.ExecutePlain (cb : CircuitBreaker) (now : Int)
    (res : Option GoErr) : ExecOut Unit :=
  cb.Execute now (fun _ => ((), res)) ()

/-- `bulkhead.Bulkhead` (bulkhead.go lines 8–11): the buffered channel
`sem chan struct{}` is modelled by its buffer size (`capacity`) and the
number of tokens currently buffered (`inFlight`). A non-blocking send
(`select` with `default`) on a buffered channel with no concurrent
receiver succeeds exactly when the buffer is not full, i.e. when
`inFlight < capacity`; with `capacity = 0` (unbuffered) it always takes
the `default` branch. -/
structure Bulkhead : Type where
  capacity : Nat
  inFlight : Nat
deriving DecidableEq, Repr

/-- `bulkhead.Builder` (bulkhead.go lines 14–16). -/
structure Builder : Type where
  limit : Nat
deriving DecidableEq, Repr

/-- `bulkhead.NewBuilder` (bulkhead.go lines 19–21): default limit 1. -/
def NewBuilder : Builder := { limit := 1 }

/-- `bulkhead.Builder.Limit` (bulkhead.go lines 24–27). -/
def Builder.Limit (b : Builder) (n : Nat) : Builder := { b with limit := n }

/-- `bulkhead.Builder.Build` (bulkhead.go lines 30–32):
`make(chan struct{}, b.limit)` — a fresh, empty buffered channel. -/
def Builder.Build (b : Builder) : Bulkhead :=
  { capacity := b.limit, inFlight := 0 }

/-- Result of one run of `Bulkhead.Execute`: the bulkhead afterwards, the
occupancy of the semaphore while the operation ran (equal to `inFlight`
when the operation was rejected and never ran), the returned error and
whether the operation was invoked. -/
structure BulkheadOut : Type where
  bh : Bulkhead
  during : Nat
  ret : Option GoErr
  invoked : Bool
deriving DecidableEq, Repr

/-- `Bulkhead.Execute` (bulkhead.go lines 35–43), sequentially: try a
non-blocking send on `sem`; on success run `fn` with the token held and
release it in a `defer` whatever `fn` returns; otherwise return `ErrFull`
without invoking `fn`. `res` is the outcome `fn` would produce. -/
def Bulkhead.Execute (bh : Bulkhead) (res : Option GoErr) : BulkheadOut :=
  if bh.inFlight < bh.capacity then
    { bh := bh, during := bh.inFlight + 1, ret := res, invoked := true }
  else
    { bh := bh, during := bh.inFlight, ret := some GoErr.errFull,
      invoked := false }

/-- `httpclient.Client` (httpclient.go lines 275–279): the `fasthttp`
transport is external; only the optional breaker and bulkhead matter for
`execute`. -/
structure Client : Type where
  CB : Option CircuitBreaker
  BH : Option Bulkhead

/-- Result of one run of `Client.execute`: the guards afterwards, the
returned error, whether the innermost operation was invoked, and the
breaker's listener events and armed timers. -/
structure ClientOut : Type where
  CB : Option CircuitBreaker
  BH : Option Bulkhead
  ret : Option GoErr
  opInvoked : Bool
  events : List State
  timers : Nat

/-- `Client.execute` (httpclient.go lines 365–376): with both guards the
breaker wraps `func() error { return c.BH.Execute(fn) }`; with one guard
that guard wraps `fn` directly; with neither, `fn` runs unguarded. `res`
is the outcome the innermost operation `fn` would produce at `now`. -/
def Client.execute (c : Client) (now : Int) (res : Option GoErr) :
    ClientOut :=
  match c.CB, c.BH with
  | some cb, some bh =>
    let r := cb.Execute now
      (fun (s : Bulkhead × Bool) =>
        let o := s.1.Execute res
        ((o.bh, o.invoked), o.ret))
      (bh, false)
    { CB := some r.cb, BH := some r.opState.1, ret := r.ret,
      opInvoked := r.opState.2, events := r.events, timers := r.timers }
  | some cb, none =>
    let r := cb.Execute now (fun (_ : Bool) => (true, res)) false
    { CB := some r.cb, BH := none, ret := r.ret, opInvoked := r.opState,
      events := r.events, timers := r.timers }
  | none, some bh =>
    let o := bh.Execute res
    { CB := none, BH := some o.bh, ret := o.ret, opInvoked := o.invoked,
      events := [], timers := 0 }
  | none, none =>
    { CB := none, BH := none, ret := res, opInvoked := true,
      events := [], timers := 0 }

/-- `fasthttp.StatusInternalServerError` (= `http.StatusInternalServerError`
= 500, from the vendored fasthttp stub). -/
def statusInternalServerError : Int := 500

/-- Outcome of the underlying HTTP transport inside `Client.Call`: either
a transport-level error from `Do`/`DoDeadline`, or a response with a
status code. -/
inductive HTTPOutcome : Type
| transportFailure : Nat → HTTPOutcome
| response : Int → HTTPOutcome
deriving DecidableEq, Repr

/-- The classification performed by `callFn` inside `Client.Call`
(httpclient.go lines 343–356): a transport error is returned as is; a
response with status `>= fasthttp.StatusInternalServerError` becomes the
`server error: %d` failure; anything else is success (`nil`). This is the
outcome fed to `c.execute`, hence to the breaker and bulkhead. -/
def Client.callFn : HTTPOutcome → Option GoErr
| HTTPOutcome.transportFailure t => some (GoErr.transportFailure t)
| HTTPOutcome.response st =>
  if statusInternalServerError ≤ st then some (GoErr.serverError st)
  else none

/-- A Closed breaker used as a concrete witness input: `maxFailures = 2`,
`window = 10`, one failure recorded at time 3. -/
def cbClosedW : CircuitBreaker :=
  { maxFailures := 2, window := 10, timeout := 1, trialRequests := 2,
    trialDuration := 4, failureTimes := [3], trialCount := 0,
    trialStart := 0, state := State.Closed }

/-- The same breaker in the Open state. -/
def cbOpenW : CircuitBreaker := { cbClosedW with state := State.Open }

/-- The same breaker in the HalfOpen state, trial started at time 0 with
`trialDuration = 4`. -/
def cbHalfW : CircuitBreaker := { cbClosedW with state := State.HalfOpen }

/-- Boundary-timestamp breaker: Closed, `maxFailures = 2`, `window = 5`,
one failure recorded at time 0. A new failure at time 5 puts the old
timestamp exactly at the cutoff `now - window = 0`. -/
def cbBoundary : CircuitBreaker :=
  { maxFailures := 2, window := 5, timeout := 1, trialRequests := 0,
    trialDuration := 0, failureTimes := [0], trialCount := 0,
    trialStart := 0, state := State.Closed }

/-- A HalfOpen breaker with an empty failure record and no trial window,
used to exhibit the HalfOpen failure path. -/
def cbHalfEmpty : CircuitBreaker :=
  { maxFailures := 3, window := 0, timeout := 1, trialRequests := 2,
    trialDuration := 0, failureTimes := [], trialCount := 0,
    trialStart := 0, state := State.HalfOpen }

/-- A bulkhead with a free slot (capacity 2, one operation in flight). -/
def bhSlotW : Bulkhead := { capacity := 2, inFlight := 1 }

/-- A saturated bulkhead (capacity 1, one operation in flight). -/
def bhFullW : Bulkhead := { capacity := 1, inFlight := 1 }

end Goresily

namespace Goresily

/-- On a list that is sorted in nondecreasing order, dropping the leading
run of elements `≤ c` is the same as keeping exactly the elements `> c`:
once one element exceeds `c`, all later ones do. -/
theorem dropWhile_le_eq_filter_of_sorted (c : Int) :
    ∀ l : List Int, l.Pairwise (· ≤ ·) →
      l.dropWhile (fun t => decide (t ≤ c)) =
        l.filter (fun t => decide (c < t))
  | [], _ => rfl
  | a :: l, hp => by
    rcases List.pairwise_cons.mp hp with ⟨ha, hl⟩
    by_cases h : a ≤ c
    · rw [List.dropWhile_cons_of_pos (by simpa using h),
        List.filter_cons_of_neg (by simpa using not_lt.mpr h)]
      exact dropWhile_le_eq_filter_of_sorted c l hl
    · rw [List.dropWhile_cons_of_neg (by simpa using h),
        List.filter_cons_of_pos (by simpa using not_le.mp h)]
      have : ∀ t ∈ l, c < t := fun t ht => lt_of_lt_of_le (not_le.mp h) (ha t ht)
      rw [List.filter_eq_self.mpr (fun t ht => by simpa using this t ht)]

/-- `recordFailure` in closed form: when the failure record is sorted and
all recorded timestamps are in the past, it appends `now` and, for a
positive window, keeps exactly the timestamps strictly newer than
`now - window`; only `failureTimes` changes. -/
theorem recordFailure_struct (cb : CircuitBreaker) (now : Int)
    (hsort : cb.failureTimes.Pairwise (· ≤ ·))
    (hpast : ∀ t ∈ cb.failureTimes, t ≤ now) :
    cb.recordFailure now =
      { cb with failureTimes :=
          (if 0 < cb.window
           then (cb.failureTimes ++ [now]).filter
             (fun t => decide (now - cb.window < t))
           else cb.failureTimes ++ [now]) } := by
  have hsort2 : (cb.failureTimes ++ [now]).Pairwise (· ≤ ·) := by
    rw [List.pairwise_append]
    exact ⟨hsort, List.pairwise_singleton _ _,
      fun a ha b hb => by rw [List.mem_singleton.mp hb]; exact hpast a ha⟩
  by_cases hw : 0 < cb.window <;>
    simp [CircuitBreaker.recordFailure, hw,
      dropWhile_le_eq_filter_of_sorted (now - cb.window) _ hsort2]

/-- The breaker's visible outcome (final breaker, returned error, invoked
flag, listener events, armed timers) depends on the wrapped operation only
through the error it returns, not through the operation-state type. -/
theorem Execute_outcome_congr {σ τ : Type} (cb : CircuitBreaker)
    (now : Int) (fn : σ → σ × Option GoErr) (s : σ)
    (gn : τ → τ × Option GoErr) (t : τ) (h : (fn s).2 = (gn t).2) :
    (cb.Execute now fn s).cb = (cb.Execute now gn t).cb ∧
    (cb.Execute now fn s).ret = (cb.Execute now gn t).ret ∧
    (cb.Execute now fn s).invoked = (cb.Execute now gn t).invoked ∧
    (cb.Execute now fn s).events = (cb.Execute now gn t).events ∧
    (cb.Execute now fn s).timers = (cb.Execute now gn t).timers := by
  simp only [CircuitBreaker.Execute]
  split
  · simp
  · split
    · simp
    · cases hf : (fn s).2 with
      | none =>
        rw [hf] at h
        rw [← h]
        cases cb.state <;> simp <;> split <;> simp
      | some e =>
        rw [hf] at h
        rw [← h]
        cases cb.state <;> simp <;> split <;> simp

/-- C1 (counterexample): the claim keeps failure timestamps exactly at the
boundary `now - window`, but `recordFailure` drops them (`After(cutoff)` is
strict). With `maxFailures = 2`, `window = 5`, record `[0]` and a failure
at `now = 5`, the boundary timestamp 0 is dropped: the record becomes
`[5]`, the threshold is not reached and the breaker stays Closed with no
timer armed — under the claim the record would be `[0, 5]`, the breaker
would trip to Open and arm the timer. -/
theorem C1_counterexample :
    cbBoundary.state = State.Closed ∧ cbBoundary.window = 5 ∧
    cbBoundary.maxFailures = 2 ∧ cbBoundary.failureTimes = [0] ∧
    (cbBoundary.ExecutePlain 5 (some (GoErr.opFailure 0))).cb.state =
      State.Closed ∧
    (cbBoundary.ExecutePlain 5 (some (GoErr.opFailure 0))).cb.failureTimes =
      [5] ∧
    (cbBoundary.ExecutePlain 5 (some (GoErr.opFailure 0))).timers = 0 := by
  decide

/-- C1 (amended): for every Closed breaker whose failure record is sorted
and in the past, when the operation fails `Execute` appends `now` and, if
`window > 0`, drops the timestamps at or older than `now - window`
(dropping those exactly at the boundary, keeping strictly newer ones)
before comparing the record length against `maxFailures`; if the length
reaches `maxFailures` the record is cleared, the breaker transitions to
Open and the open timer is armed; in every case the operation's failure is
returned unmodified. -/
theorem C1_closed_failure (cb : CircuitBreaker) (now : Int) (e : GoErr)
    (h1 : cb.state = State.Closed)
    (hsort : cb.failureTimes.Pairwise (· ≤ ·))
    (hpast : ∀ t ∈ cb.failureTimes, t ≤ now) :
    (cb.ExecutePlain now (some e)).ret = some e ∧
    (cb.ExecutePlain now (some e)).invoked = true ∧
    (if cb.maxFailures ≤
        ((if 0 < cb.window
          then (cb.failureTimes ++ [now]).filter
            (fun t => decide (now - cb.window < t))
          else cb.failureTimes ++ [now]).length : Int)
     then (cb.ExecutePlain now (some e)).cb =
            { cb with failureTimes := [], trialCount := 0, state := State.Open } ∧
          (cb.ExecutePlain now (some e)).events = [State.Open] ∧
          (cb.ExecutePlain now (some e)).timers = 1
     else (cb.ExecutePlain now (some e)).cb =
            { cb with failureTimes := (if 0 < cb.window then (cb.failureTimes ++ [now]).filter (fun t => decide (now - cb.window < t)) else cb.failureTimes ++ [now]) } ∧
          (cb.ExecutePlain now (some e)).events = [] ∧
          (cb.ExecutePlain now (some e)).timers = 0) := by
  have hrec := recordFailure_struct cb now hsort hpast
  by_cases hc : cb.maxFailures ≤
      ((if 0 < cb.window
        then (cb.failureTimes ++ [now]).filter
          (fun t => decide (now - cb.window < t))
        else cb.failureTimes ++ [now]).length : Int)
  all_goals
    simp only [List.filter_append] at hc
    simp [CircuitBreaker.ExecutePlain, CircuitBreaker.Execute, h1, hrec, hc,
      CircuitBreaker.resetFailures, CircuitBreaker.setState]

/-- Witness for C1: the Closed breaker `cbClosedW` with a failing call at
time 12 returns that failure. -/
theorem C1_closed_failure_witness :
    (cbClosedW.ExecutePlain 12 (some (GoErr.opFailure 1))).ret =
      some (GoErr.opFailure 1) :=
  (C1_closed_failure cbClosedW 12 (GoErr.opFailure 1) rfl (by decide)
    (by decide)).1

/-- C2: for every breaker that is Open at the start of `Execute`,
`ErrOpen` is returned immediately, the wrapped operation is never invoked
and the breaker (failure record included) is unchanged; no listener event
fires and no timer is armed. -/
theorem C2_open_fast_fail {σ : Type} (cb : CircuitBreaker) (now : Int)
    (fn : σ → σ × Option GoErr) (s : σ) (h : cb.state = State.Open) :
    cb.Execute now fn s =
      { cb := cb, opState := s, ret := some GoErr.errOpen, invoked := false,
        events := [], timers := 0 } := by
  simp [CircuitBreaker.Execute, h]

/-- Witness for C2 at the concrete Open breaker `cbOpenW`. -/
theorem C2_open_fast_fail_witness :
    cbOpenW.Execute 3 (fun (_ : Unit) => ((), some (GoErr.opFailure 1))) () =
      { cb := cbOpenW, opState := (), ret := some GoErr.errOpen,
        invoked := false, events := [], timers := 0 } :=
  C2_open_fast_fail cbOpenW 3 (fun (_ : Unit) => ((), some (GoErr.opFailure 1)))
    () rfl

/-- C3: for every HalfOpen breaker with `trialDuration > 0`, once more
than `trialDuration` has elapsed since `trialStart`, `Execute` transitions
the breaker to Open, arms the open timer once, fires the listener with
Open, and returns `ErrOpen` without invoking the operation. -/
theorem C3_halfopen_expired {σ : Type} (cb : CircuitBreaker) (now : Int)
    (fn : σ → σ × Option GoErr) (s : σ) (h1 : cb.state = State.HalfOpen)
    (h2 : 0 < cb.trialDuration)
    (h3 : cb.trialDuration < now - cb.trialStart) :
    cb.Execute now fn s =
      { cb := { cb with state := State.Open }, opState := s,
        ret := some GoErr.errOpen, invoked := false,
        events := [State.Open], timers := 1 } := by
  simp [CircuitBreaker.Execute, CircuitBreaker.setState, h1, h2, h3]

/-- Witness for C3: `cbHalfW` (trial started at 0, `trialDuration = 4`)
called at time 5. -/
theorem C3_halfopen_expired_witness :
    cbHalfW.Execute 5 (fun (_ : Unit) => ((), none)) () =
      { cb := { cbHalfW with state := State.Open }, opState := (),
        ret := some GoErr.errOpen, invoked := false,
        events := [State.Open], timers := 1 } :=
  C3_halfopen_expired cbHalfW 5 (fun (_ : Unit) => ((), none)) () rfl
    (by decide) (by decide)

end Goresily

namespace Goresily

/-- C4 (counterexample): the claim says a failing HalfOpen trial appends a
timestamp to the failure record, but the HalfOpen failure branch of
`Execute` never calls `recordFailure`: for the HalfOpen breaker
`cbHalfEmpty` (empty record, no trial window) a failing call leaves the
record empty (the claim requires length 1) while still re-opening. -/
theorem C4_counterexample :
    cbHalfEmpty.state = State.HalfOpen ∧ cbHalfEmpty.trialDuration = 0 ∧
    cbHalfEmpty.failureTimes.length = 0 ∧
    (cbHalfEmpty.ExecutePlain 7 (some (GoErr.opFailure 0))).cb.failureTimes.length
      = 0 ∧
    (cbHalfEmpty.ExecutePlain 7 (some (GoErr.opFailure 0))).cb.state =
      State.Open := by
  decide

/-- C4 (amended): for every HalfOpen breaker within its trial window, when
the trial call fails `Execute` increments the trial count, leaves the
failure record unchanged (no timestamp is appended), transitions the
breaker to Open regardless of `trialRequests` (re-arming the open timer
and firing the listener with Open), and returns the operation's failure
unmodified. -/
theorem C4_halfopen_failure (cb : CircuitBreaker) (now : Int) (e : GoErr)
    (h1 : cb.state = State.HalfOpen)
    (h2 : ¬(0 < cb.trialDuration ∧ cb.trialDuration < now - cb.trialStart)) :
    (cb.ExecutePlain now (some e)) =
      { cb := { cb with trialCount := cb.trialCount + 1, state := State.Open },
        opState := (), ret := some e, invoked := true,
        events := [State.Open], timers := 1 } := by
  simp only [CircuitBreaker.ExecutePlain, CircuitBreaker.Execute, h1]
  rw [if_neg (by simp [h2]), if_neg (by simp)]
  simp [CircuitBreaker.setState]

/-- Witness for C4: `cbHalfW` called at time 2 (inside the trial window)
with a failing operation. -/
theorem C4_halfopen_failure_witness :
    (cbHalfW.ExecutePlain 2 (some (GoErr.opFailure 1))) =
      { cb := { cbHalfW with trialCount := cbHalfW.trialCount + 1, state := State.Open },
        opState := (), ret := some (GoErr.opFailure 1), invoked := true,
        events := [State.Open], timers := 1 } :=
  C4_halfopen_failure cbHalfW 2 (GoErr.opFailure 1) rfl (by decide)

/-- C5: when the wrapped operation succeeds, a Closed breaker clears its
failure record (and trial counter) and returns success; a HalfOpen breaker
within its trial window increments the trial count and, once it reaches
`trialRequests` (with `trialRequests = 0` meaning a single success
suffices), transitions to Closed, fires the listener with Closed and
clears the failure record and trial counter — otherwise it only keeps the
incremented count; in both cases success is returned. -/
theorem C5_success (cb : CircuitBreaker) (now : Int) :
    (cb.state = State.Closed →
      cb.ExecutePlain now none =
        { cb := { cb with failureTimes := [], trialCount := 0 },
          opState := (), ret := none, invoked := true, events := [],
          timers := 0 }) ∧
    (cb.state = State.HalfOpen →
      ¬(0 < cb.trialDuration ∧ cb.trialDuration < now - cb.trialStart) →
      cb.ExecutePlain now none =
        (if cb.trialRequests = 0 ∨ cb.trialRequests ≤ cb.trialCount + 1
         then { cb := { cb with failureTimes := [], trialCount := 0, state := State.Closed },
                opState := (), ret := none, invoked := true,
                events := [State.Closed], timers := 0 }
         else { cb := { cb with trialCount := cb.trialCount + 1 },
                opState := (), ret := none, invoked := true, events := [],
                timers := 0 })) := by
  constructor
  · intro h1
    simp [CircuitBreaker.ExecutePlain, CircuitBreaker.Execute, h1,
      CircuitBreaker.resetFailures]
  · intro h1 h2
    simp only [CircuitBreaker.ExecutePlain, CircuitBreaker.Execute, h1]
    rw [if_neg (by simp [h2]), if_neg (by simp)]
    by_cases hc : cb.trialRequests = 0 ∨ cb.trialRequests ≤ cb.trialCount + 1
    all_goals
      simp [hc, CircuitBreaker.setState, CircuitBreaker.resetFailures]

/-- Witness for C5: a Closed success at `cbClosedW` clears the record, and
a HalfOpen success at `cbHalfW` (trial 1 of 2) keeps the breaker HalfOpen
with the incremented count. -/
theorem C5_success_witness :
    cbClosedW.ExecutePlain 2 none =
      { cb := { cbClosedW with failureTimes := [], trialCount := 0 },
        opState := (), ret := none, invoked := true, events := [],
        timers := 0 } ∧
    cbHalfW.ExecutePlain 2 none =
      (if cbHalfW.trialRequests = 0 ∨ cbHalfW.trialRequests ≤ cbHalfW.trialCount + 1
       then { cb := { cbHalfW with failureTimes := [], trialCount := 0, state := State.Closed },
              opState := (), ret := none, invoked := true,
              events := [State.Closed], timers := 0 }
       else { cb := { cbHalfW with trialCount := cbHalfW.trialCount + 1 },
              opState := (), ret := none, invoked := true, events := [],
              timers := 0 }) :=
  ⟨(C5_success cbClosedW 2).1 rfl, (C5_success cbHalfW 2).2 rfl (by decide)⟩

/-- C6: for every bulkhead, if a slot is free (`inFlight < capacity`)
`Execute` claims it (occupancy `inFlight + 1` during the call, still within
capacity), invokes the operation, releases the slot unconditionally (the
bulkhead afterwards equals the bulkhead before, whether the operation
succeeded or failed) and returns the operation's result unchanged; if all
slots are taken it returns `ErrFull` immediately and the operation is
never invoked. -/
theorem C6_bulkhead (bh : Bulkhead) (res : Option GoErr) :
    (bh.inFlight < bh.capacity →
      bh.Execute res =
        { bh := bh, during := bh.inFlight + 1, ret := res, invoked := true } ∧
      bh.inFlight + 1 ≤ bh.capacity) ∧
    (bh.capacity ≤ bh.inFlight →
      bh.Execute res =
        { bh := bh, during := bh.inFlight, ret := some GoErr.errFull,
          invoked := false }) := by
  constructor
  · intro h
    exact ⟨by simp [Bulkhead.Execute, h], h⟩
  · intro h
    simp [Bulkhead.Execute, Nat.not_lt.mpr h]

/-- Witness for C6: the bulkhead with a free slot admits a failing
operation and releases the slot; the saturated bulkhead rejects. -/
theorem C6_bulkhead_witness :
    (bhSlotW.Execute (some (GoErr.opFailure 1)) =
      { bh := bhSlotW, during := bhSlotW.inFlight + 1,
        ret := some (GoErr.opFailure 1), invoked := true } ∧
      bhSlotW.inFlight + 1 ≤ bhSlotW.capacity) ∧
    bhFullW.Execute none =
      { bh := bhFullW, during := bhFullW.inFlight,
        ret := some GoErr.errFull, invoked := false } :=
  ⟨(C6_bulkhead bhSlotW (some (GoErr.opFailure 1))).1 (by decide),
   (C6_bulkhead bhFullW none).2 (by decide)⟩

end Goresily

namespace Goresily

/-- C7: with both guards, `Client.execute` runs the breaker around the
bulkhead around the operation: (a) a breaker fast-fail (Open, or HalfOpen
past its trial window) returns `ErrOpen` with the bulkhead untouched and
the operation never invoked; (b) when the bulkhead is saturated the
composed call returns `ErrFull` and the breaker ends in exactly the state
it reaches when its wrapped operation fails with `ErrFull` — the rejection
counts toward the failure threshold like any operation failure; (c) with
only a breaker, that breaker directly wraps the operation; (d) with only a
bulkhead, the bulkhead directly wraps it; (e) with neither, the operation
runs unguarded. -/
theorem C7_composition (cb : CircuitBreaker) (bh : Bulkhead) (now : Int)
    (res : Option GoErr) :
    ((cb.state = State.Open ∨
        (cb.state = State.HalfOpen ∧ 0 < cb.trialDuration ∧
          cb.trialDuration < now - cb.trialStart)) →
      (Client.execute { CB := some cb, BH := some bh } now res).ret =
          some GoErr.errOpen ∧
      (Client.execute { CB := some cb, BH := some bh } now res).BH =
          some bh ∧
      (Client.execute { CB := some cb, BH := some bh } now res).opInvoked =
          false) ∧
    (bh.capacity ≤ bh.inFlight →
      (Client.execute { CB := some cb, BH := some bh } now res).CB =
          some (cb.ExecutePlain now (some GoErr.errFull)).cb ∧
      (Client.execute { CB := some cb, BH := some bh } now res).ret =
          (cb.ExecutePlain now (some GoErr.errFull)).ret ∧
      (Client.execute { CB := some cb, BH := some bh } now res).BH =
          some bh ∧
      (Client.execute { CB := some cb, BH := some bh } now res).opInvoked =
          false ∧
      (Client.execute { CB := some cb, BH := some bh } now res).events =
          (cb.ExecutePlain now (some GoErr.errFull)).events ∧
      (Client.execute { CB := some cb, BH := some bh } now res).timers =
          (cb.ExecutePlain now (some GoErr.errFull)).timers) ∧
    ((Client.execute { CB := some cb, BH := none } now res).CB =
        some (cb.ExecutePlain now res).cb ∧
      (Client.execute { CB := some cb, BH := none } now res).ret =
        (cb.ExecutePlain now res).ret ∧
      (Client.execute { CB := some cb, BH := none } now res).opInvoked =
        (cb.ExecutePlain now res).invoked ∧
      (Client.execute { CB := some cb, BH := none } now res).events =
        (cb.ExecutePlain now res).events ∧
      (Client.execute { CB := some cb, BH := none } now res).timers =
        (cb.ExecutePlain now res).timers) ∧
    (Client.execute { CB := none, BH := some bh } now res =
      { CB := none, BH := some (bh.Execute res).bh,
        ret := (bh.Execute res).ret, opInvoked := (bh.Execute res).invoked,
        events := [], timers := 0 }) ∧
    (Client.execute { CB := none, BH := none } now res =
      { CB := none, BH := none, ret := res, opInvoked := true,
        events := [], timers := 0 }) := by
  refine ⟨?_, ?_, ?_, ?_, ?_⟩
  · rintro (h | ⟨h1, h2, h3⟩)
    · simp [Client.execute, CircuitBreaker.Execute, h]
    · simp [Client.execute, CircuitBreaker.Execute,
        CircuitBreaker.setState, h1, h2, h3]
  · intro h
    have hb : bh.Execute res =
        { bh := bh, during := bh.inFlight, ret := some GoErr.errFull,
          invoked := false } := by
      simp [Bulkhead.Execute, Nat.not_lt.mpr h]
    have hcongr := Execute_outcome_congr cb now
      (fun (s : Bulkhead × Bool) =>
        let o := s.1.Execute res
        ((o.bh, o.invoked), o.ret))
      (bh, false) (fun (_ : Unit) => ((), some GoErr.errFull)) ()
      (by simp [hb])
    have hop : (cb.Execute now
        (fun (s : Bulkhead × Bool) =>
          let o := s.1.Execute res
          ((o.bh, o.invoked), o.ret))
        (bh, false)).opState = (bh, false) := by
      simp only [CircuitBreaker.Execute]
      split
      · rfl
      · split
        · rfl
        · cases cb.state <;> simp [hb] <;> split <;> simp [hb]
    refine ⟨?_, ?_, ?_, ?_, ?_, ?_⟩ <;>
      simp [Client.execute, CircuitBreaker.ExecutePlain, hcongr.1,
        hcongr.2.1, hcongr.2.2.2.1, hcongr.2.2.2.2, hop]
  · have hcongr := Execute_outcome_congr cb now
      (fun (_ : Bool) => (true, res)) false
      (fun (_ : Unit) => ((), res)) () rfl
    have hop : (cb.Execute now (fun (_ : Bool) => (true, res)) false).opState =
        (cb.Execute now (fun (_ : Bool) => (true, res)) false).invoked := by
      simp only [CircuitBreaker.Execute]
      split
      · rfl
      · split
        · rfl
        · cases cb.state <;> cases res <;> simp <;> split <;> simp
    refine ⟨?_, ?_, ?_, ?_, ?_⟩ <;>
      simp [Client.execute, CircuitBreaker.ExecutePlain, hcongr.1,
        hcongr.2.1, hcongr.2.2.1, hcongr.2.2.2.1, hcongr.2.2.2.2, hop]
  · rfl
  · rfl

/-- Witness for C7: an Open breaker fast-fails the composed call leaving
the bulkhead untouched, and a saturated bulkhead under a Closed breaker
surfaces as an `ErrFull` operation failure to that breaker. -/
theorem C7_composition_witness :
    ((Client.execute { CB := some cbOpenW, BH := some bhSlotW } 3 none).ret =
        some GoErr.errOpen ∧
      (Client.execute { CB := some cbOpenW, BH := some bhSlotW } 3 none).BH =
        some bhSlotW ∧
      (Client.execute { CB := some cbOpenW, BH := some bhSlotW } 3 none).opInvoked =
        false) ∧
    ((Client.execute { CB := some cbClosedW, BH := some bhFullW } 3 none).CB =
        some (cbClosedW.ExecutePlain 3 (some GoErr.errFull)).cb ∧
      (Client.execute { CB := some cbClosedW, BH := some bhFullW } 3 none).ret =
        (cbClosedW.ExecutePlain 3 (some GoErr.errFull)).ret) :=
  ⟨(C7_composition cbOpenW bhSlotW 3 none).1 (Or.inl rfl),
   ⟨((C7_composition cbClosedW bhFullW 3 none).2.1 (by decide)).1,
    ((C7_composition cbClosedW bhFullW 3 none).2.1 (by decide)).2.1⟩⟩

/-- C8: the outcome `Client.Call` feeds to the breaker and bulkhead is a
failure exactly when the transport returned an error or the response
status is in the server-error class (`>= 500`); every other outcome,
client-error (4xx) responses included, is a success. -/
theorem C8_failure_classification (o : HTTPOutcome) :
    (Client.callFn o).isSome = true ↔
      (∃ t, o = HTTPOutcome.transportFailure t) ∨
      (∃ st, o = HTTPOutcome.response st ∧ statusInternalServerError ≤ st) := by
  cases o with
  | transportFailure t => simp [Client.callFn]
  | response st =>
    by_cases h : statusInternalServerError ≤ st <;> simp [Client.callFn, h]

/-- C9: `setState` leaves the breaker in the requested state and calls the
listener exactly once with the new state when the state actually changes,
and not at all on a transition to the state the breaker is already in
(which also leaves the breaker entirely unchanged). -/
theorem C9_listener (cb : CircuitBreaker) (s : State) :
    (cb.setState s).1.state = s ∧
    (cb.setState s).2 = (if cb.state = s then [] else [s]) ∧
    (cb.state ≠ s → (cb.setState s).1 = { cb with state := s }) ∧
    (cb.state = s → (cb.setState s).1 = cb) := by
  by_cases h : cb.state = s <;> simp [CircuitBreaker.setState, h]

/-- Witness for C9: moving `cbClosedW` to Open fires the listener once
with Open; a no-op transition of `cbOpenW` to Open fires nothing. -/
theorem C9_listener_witness :
    (cbClosedW.setState State.Open).2 =
      (if cbClosedW.state = State.Open then [] else [State.Open]) ∧
    (cbOpenW.setState State.Open).1 = cbOpenW :=
  ⟨(C9_listener cbClosedW State.Open).2.1,
   (C9_listener cbOpenW State.Open).2.2.2 rfl⟩

/-- C10: a bulkhead whose capacity is what `Limit(0)` followed by `Build`
produces (an unbuffered channel) rejects every call: the non-blocking send
has no concurrent receiver, so the `default` branch is always taken,
`ErrFull` is returned and the operation is never invoked. -/
theorem C10_limit_zero (bh : Bulkhead) (res : Option GoErr)
    (h : bh.capacity = (NewBuilder.Limit 0).Build.capacity) :
    bh.Execute res =
      { bh := bh, during := bh.inFlight, ret := some GoErr.errFull,
        invoked := false } := by
  have h0 : bh.capacity = 0 := h
  simp [Bulkhead.Execute, h0]

/-- Witness for C10: the bulkhead actually built with `Limit(0)` rejects a
call whose operation would have succeeded. -/
theorem C10_limit_zero_witness :
    (NewBuilder.Limit 0).Build.Execute none =
      { bh := (NewBuilder.Limit 0).Build,
        during := (NewBuilder.Limit 0).Build.inFlight,
        ret := some GoErr.errFull, invoked := false } :=
  C10_limit_zero (NewBuilder.Limit 0).Build none rfl

end Goresily
